import Mathlib

/-!
Verification of the core logic of the Titanic survival predictor
(`src/components/TitanicPredictor.tsx`): the CSV parser (`parseCSV`,
`parseCSVLine`), the rule-based scorer (`predictSurvival`) and the dataset
summarizer (`calculateModelStats`).

JavaScript numbers are modelled by `JNum`: either `NaN` or an exact rational.
Numeric comparisons against `NaN` are false, and the `x || d` idiom used by
the code yields `d` whenever `x` is falsy (absent, `null`, `NaN`, or `0`).
Strings in the CSV layer are modelled as `List Char`.
-/

/-- A JavaScript number: `NaN` or a (finite, exact) rational value. -/
inductive JNum where
  | nan : JNum
  | num : ℚ → JNum
deriving DecidableEq

/-- The `x || d` idiom on a possibly-absent number: the value if truthy,
else the default.  `undefined`, `null`, `NaN` and `0` are all falsy and
yield the default, exactly as in JavaScript. -/
def jOr (x : Option JNum) (d : ℚ) : ℚ :=
  match x with
  | some (.num q) => if q = 0 then d else q
  | _ => d

/-- The argument type of `predictSurvival` (`Partial<Passenger>`, restricted
to the fields the function reads plus `Embarked`, which `handlePredict`
passes from `PredictionInput`): each field possibly absent. -/
structure ScorerInput where
  Sex : Option String := none
  Pclass : Option JNum := none
  Age : Option JNum := none
  SibSp : Option JNum := none
  Parch : Option JNum := none
  Fare : Option JNum := none
  Embarked : Option String := none
deriving DecidableEq

/-- Result of `predictSurvival`: `{ probability, survived }`. -/
structure PredictionResult where
  probability : ℚ
  survived : Bool
deriving DecidableEq

/-- Gender rule: `Sex === 'female'` adds 0.35, anything else subtracts 0.25. -/
def sexAdj (s : Option String) : ℚ :=
  if s = some "female" then 0.35 else -0.25

/-- Class rule: `Pclass === 1` adds 0.2, `=== 2` adds 0.05, else subtracts 0.15. -/
def classAdj (c : Option JNum) : ℚ :=
  if c = some (.num 1) then 0.2
  else if c = some (.num 2) then 0.05
  else -0.15

/-- Age rule: `const age = passenger.Age || 30` then threshold tests. -/
def ageAdj (a : Option JNum) : ℚ :=
  let age := jOr a 30
  if age < 16 then 0.1
  else if age > 60 then -0.1
  else 0

/-- Family-size rule:
`const familySize = (passenger.SibSp || 0) + (passenger.Parch || 0)`. -/
def famAdj (sibsp parch : Option JNum) : ℚ :=
  let familySize := jOr sibsp 0 + jOr parch 0
  if familySize > 0 ∧ familySize < 4 then 0.05
  else if familySize ≥ 4 then -0.1
  else 0

/-- Fare rule: `const fare = passenger.Fare || 15` then threshold tests. -/
def fareAdj (f : Option JNum) : ℚ :=
  let fare := jOr f 15
  if fare > 50 then 0.1
  else if fare < 10 then -0.05
  else 0

/-- The running `score` of `predictSurvival` just before clamping: base 0.5
plus the five independent additive adjustments. -/
def score (p : ScorerInput) : ℚ :=
  0.5 + sexAdj p.Sex + classAdj p.Pclass + ageAdj p.Age
    + famAdj p.SibSp p.Parch + fareAdj p.Fare

/-- `Math.min` on finite numbers. -/
def mathMin (a b : ℚ) : ℚ := if a ≤ b then a else b

/-- `Math.max` on finite numbers. -/
def mathMax (a b : ℚ) : ℚ := if a ≤ b then b else a

/-- `predictSurvival`: clamp the score to `[0,1]` via
`Math.max(0, Math.min(1, score))`, verdict is `probability > 0.5`. -/
def predictSurvival (p : ScorerInput) : PredictionResult :=
  let probability := mathMax 0 (mathMin 1 (score p))
  ⟨probability, decide (probability > 0.5)⟩

/-! ## The CSV layer -/

/-- Whitespace as stripped by `String.prototype.trim` (the characters that
can actually occur in the data). -/
def isJSWhitespace (c : Char) : Bool :=
  c = ' ' || c = '\t' || c = '\n' || c = '\r'

/-- `csvText.trim()`. -/
def trimJS (s : List Char) : List Char :=
  ((s.dropWhile isJSWhitespace).reverse.dropWhile isJSWhitespace).reverse

/-- `String.prototype.split(sep)` for a single-character separator:
always yields at least one (possibly empty) field. -/
def splitOnChar (sep : Char) : List Char → List (List Char)
  | [] => [[]]
  | c :: rest =>
    if c = sep then [] :: splitOnChar sep rest
    else
      match splitOnChar sep rest with
      | [] => [[c]]
      | f :: fs => (c :: f) :: fs

/-- The loop state of `parseCSVLine`: the fields pushed so far (`result`),
the field being accumulated (`current`), and the `inQuotes` flag. -/
structure LineState where
  result : List (List Char)
  current : List Char
  inQuotes : Bool
deriving DecidableEq

/-- One iteration of the `parseCSVLine` loop: `"` toggles the flag (and is
not copied), an unquoted `,` pushes the current field, anything else is
appended to the current field. -/
def stepCSVLine (st : LineState) (c : Char) : LineState :=
  if c = '"' then { st with inQuotes := !st.inQuotes }
  else if c = ',' ∧ st.inQuotes = false then
    { result := st.result ++ [st.current], current := [], inQuotes := st.inQuotes }
  else { st with current := st.current ++ [c] }

/-- `parseCSVLine`: run the loop over the line, then push the final
`current` unconditionally. -/
def parseCSVLine (line : List Char) : List (List Char) :=
  let st := line.foldl stepCSVLine ⟨[], [], false⟩
  st.result ++ [st.current]

/-- `value.replace(/"/g, '')`: strip every remaining quote character. -/
def stripQuotes (s : List Char) : List Char :=
  s.filter (fun c => c != '"')

/-- A JavaScript value stored in the row object built by `parseCSV`:
a number, `null`, or a string. -/
inductive JSVal where
  | jnum : JNum → JSVal
  | jnull : JSVal
  | jstr : List Char → JSVal
deriving DecidableEq

/-- The numeric value of a list of decimal digits. -/
def digitsToNat (ds : List Char) : ℕ :=
  ds.foldl (fun n c => 10 * n + (c.toNat - '0'.toNat)) 0

/-- JavaScript `parseInt` (decimal): skip leading whitespace, optional
sign, then the longest run of leading digits; `NaN` if there is none. -/
def parseIntJS (s : List Char) : JNum :=
  let t := s.dropWhile isJSWhitespace
  match t with
  | '-' :: rest =>
    let ds := rest.takeWhile Char.isDigit
    if ds = [] then .nan else .num (-(digitsToNat ds : ℚ))
  | '+' :: rest =>
    let ds := rest.takeWhile Char.isDigit
    if ds = [] then .nan else .num (digitsToNat ds)
  | _ =>
    let ds := t.takeWhile Char.isDigit
    if ds = [] then .nan else .num (digitsToNat ds)

/-- Exponent suffix of a JavaScript float literal (`e5`, `E-2`, ...);
an ill-formed suffix is ignored, as `parseFloat` stops at the first
character that cannot extend the number. -/
def applyExpSign (q : ℚ) (s : List Char) : ℚ :=
  match s with
  | '-' :: rest =>
    let ds := rest.takeWhile Char.isDigit
    if ds = [] then q else q / 10 ^ digitsToNat ds
  | '+' :: rest =>
    let ds := rest.takeWhile Char.isDigit
    if ds = [] then q else q * 10 ^ digitsToNat ds
  | _ =>
    let ds := s.takeWhile Char.isDigit
    if ds = [] then q else q * 10 ^ digitsToNat ds

/-- Optional `e`/`E` exponent part after the mantissa. -/
def applyExponent (q : ℚ) (s : List Char) : ℚ :=
  match s with
  | 'e' :: rest => applyExpSign q rest
  | 'E' :: rest => applyExpSign q rest
  | _ => q

/-- Unsigned mantissa of a JavaScript float literal: digits, an optional
point and fraction digits, an optional exponent; `none` when no digit at
all is found. -/
def parseFloatMag (s : List Char) : Option ℚ :=
  let intDigits := s.takeWhile Char.isDigit
  let rest := s.dropWhile Char.isDigit
  match rest with
  | '.' :: rest2 =>
    let fracDigits := rest2.takeWhile Char.isDigit
    if intDigits = [] ∧ fracDigits = [] then none
    else some (applyExponent
      ((digitsToNat intDigits : ℚ) + (digitsToNat fracDigits : ℚ) / 10 ^ fracDigits.length)
      (rest2.dropWhile Char.isDigit))
  | _ =>
    if intDigits = [] then none else some (applyExponent (digitsToNat intDigits) rest)

/-- JavaScript `parseFloat`: skip leading whitespace, optional sign, then
the longest leading numeric literal; `NaN` if there is none. -/
def parseFloatJS (s : List Char) : JNum :=
  let t := s.dropWhile isJSWhitespace
  match t with
  | '-' :: rest =>
    match parseFloatMag rest with
    | some q => .num (-q)
    | none => .nan
  | '+' :: rest =>
    match parseFloatMag rest with
    | some q => .num q
    | none => .nan
  | _ =>
    match parseFloatMag t with
    | some q => .num q
    | none => .nan

/-- The headers coerced with `parseInt(value) || 0` in the `switch`. -/
def intHeaders : List (List Char) :=
  ["PassengerId".toList, "Survived".toList, "Pclass".toList,
   "SibSp".toList, "Parch".toList]

/-- The `switch (header)` of `parseCSV`: integer headers get
`parseInt(value) || 0`; `Age` and `Fare` get `value ? parseFloat(value) :
null`; everything else keeps the literal string. -/
def coerceField (header : List Char) (value : List Char) : JSVal :=
  if header ∈ intHeaders then
    .jnum (.num (jOr (some (parseIntJS value)) 0))
  else if header = "Age".toList ∨ header = "Fare".toList then
    (if value = [] then .jnull else .jnum (parseFloatJS value))
  else .jstr value

/-- The body of `parseCSV`'s `map`: split the line with `parseCSVLine`,
then for each header take `values[index]?.replace(/"/g, '') || ''` and
coerce it, building the row object as header/value pairs in header order. -/
def parseRow (headers : List (List Char)) (line : List Char) :
    List (List Char × JSVal) :=
  let values := parseCSVLine line
  headers.enum.map (fun hi => (hi.2, coerceField hi.2 (stripQuotes (values.getD hi.1 []))))

/-- `parseCSV`: trim the text, split into lines, split the first line on
plain commas as headers, and map `parseRow` over the remaining lines. -/
def parseCSV (csvText : List Char) : List (List (List Char × JSVal)) :=
  let lines := splitOnChar '\n' (trimJS csvText)
  let headers := splitOnChar ',' (lines.headD [])
  (lines.drop 1).map (parseRow headers)

/-- Join a header line and data rows with `'\n'` separators: the shape of
a well-formed input text for `parseCSV`. -/
def joinLines : List (List Char) → List Char
  | [] => []
  | [l] => l
  | l :: l2 :: rest => l ++ '\n' :: joinLines (l2 :: rest)

/-! ## The summarizer -/

/-- The `Passenger` interface (the typed view of a parsed row). -/
structure Passenger where
  PassengerId : JNum
  Survived : JNum
  Pclass : JNum
  Name : String
  Sex : String
  Age : Option JNum
  SibSp : JNum
  Parch : JNum
  Ticket : String
  Fare : Option JNum
  Cabin : String
  Embarked : String
deriving DecidableEq

/-- A full `Passenger` used as the `Partial<Passenger>` argument of
`predictSurvival` (as `calculateModelStats` does): every field present. -/
def Passenger.toScorerInput (p : Passenger) : ScorerInput :=
  ⟨some p.Sex, some p.Pclass, p.Age, some p.SibSp, some p.Parch, p.Fare,
   some p.Embarked⟩

/-- The `ModelStats` record. -/
structure ModelStats where
  accuracy : ℚ
  totalPassengers : ℕ
  survivedCount : ℕ
  deathCount : ℕ
deriving DecidableEq

/-- `calculateModelStats` as a pure function: counts, and accuracy =
(correct predictions / total) * 100. -/
def calculateModelStats (passengers : List Passenger) : ModelStats :=
  let totalPassengers := passengers.length
  let survivedCount := (passengers.filter (fun p => p.Survived == .num 1)).length
  let deathCount := totalPassengers - survivedCount
  let correctPredictions := (passengers.filter (fun p =>
    let predicted := predictSurvival p.toScorerInput
    (predicted.survived && p.Survived == .num 1)
      || (!predicted.survived && p.Survived == .num 0))).length
  let accuracy := ((correctPredictions : ℚ) / (totalPassengers : ℚ)) * 100
  ⟨accuracy, totalPassengers, survivedCount, deathCount⟩

/-! ## Sanity checks: the two concrete scenarios of the specification -/

example : (predictSurvival ⟨some "male", some (.num 3), some (.num 30),
    some (.num 0), some (.num 0), some (.num 15), some "S"⟩).probability
    = 0.1 := by
  simp [predictSurvival, score, sexAdj, classAdj, ageAdj, famAdj,
    fareAdj, jOr, mathMin, mathMax]
  norm_num

example : (predictSurvival ⟨some "female", some (.num 1), some (.num 10),
    some (.num 1), some (.num 1), some (.num 80), some "C"⟩).probability
    = 1 := by
  simp [predictSurvival, score, sexAdj, classAdj, ageAdj, famAdj,
    fareAdj, jOr, mathMin, mathMax]
  norm_num

/-! ## Helper lemmas for the scorer -/

lemma predictSurvival_probability (p : ScorerInput) :
    (predictSurvival p).probability = mathMax 0 (mathMin 1 (score p)) := rfl

lemma clamp01_nonneg (s : ℚ) : 0 ≤ mathMax 0 (mathMin 1 s) := by
  unfold mathMax mathMin; split_ifs <;> linarith

lemma clamp01_le_one (s : ℚ) : mathMax 0 (mathMin 1 s) ≤ 1 := by
  unfold mathMax mathMin; split_ifs <;> linarith

lemma clamp01_eq_self (s : ℚ) (h0 : 0 ≤ s) (h1 : s ≤ 1) :
    mathMax 0 (mathMin 1 s) = s := by
  unfold mathMax mathMin; split_ifs <;> linarith

lemma clamp01_strict_mono (s t : ℚ) (h1 : s < 1) (h2 : 0 < t) (h3 : s < t) :
    mathMax 0 (mathMin 1 s) < mathMax 0 (mathMin 1 t) := by
  unfold mathMax mathMin; split_ifs <;> linarith

lemma sexAdj_female : sexAdj (some "female") = 0.35 := by simp [sexAdj]

lemma sexAdj_male : sexAdj (some "male") = -0.25 := by simp [sexAdj]

lemma sexAdj_le (s : Option String) : sexAdj s ≤ 0.35 := by
  unfold sexAdj; split_ifs <;> norm_num

lemma sexAdj_ge (s : Option String) : -0.25 ≤ sexAdj s := by
  unfold sexAdj; split_ifs <;> norm_num

lemma classAdj_one : classAdj (some (.num 1)) = 0.2 := by simp [classAdj]

lemma classAdj_three : classAdj (some (.num 3)) = -0.15 := by
  norm_num [classAdj]

lemma classAdj_le (c : Option JNum) : classAdj c ≤ 0.2 := by
  unfold classAdj; split_ifs <;> norm_num

lemma classAdj_ge (c : Option JNum) : -0.15 ≤ classAdj c := by
  unfold classAdj; split_ifs <;> norm_num

lemma ageAdj_le (a : Option JNum) : ageAdj a ≤ 0.1 := by
  simp only [ageAdj]; split_ifs <;> norm_num

lemma ageAdj_ge (a : Option JNum) : -0.1 ≤ ageAdj a := by
  simp only [ageAdj]; split_ifs <;> norm_num

lemma famAdj_le (s p : Option JNum) : famAdj s p ≤ 0.05 := by
  simp only [famAdj]; split_ifs <;> norm_num

lemma famAdj_ge (s p : Option JNum) : -0.1 ≤ famAdj s p := by
  simp only [famAdj]; split_ifs <;> norm_num

lemma fareAdj_le (f : Option JNum) : fareAdj f ≤ 0.1 := by
  simp only [fareAdj]; split_ifs <;> norm_num

lemma fareAdj_ge (f : Option JNum) : -0.05 ≤ fareAdj f := by
  simp only [fareAdj]; split_ifs <;> norm_num

/-! ## C1 -/

/-- C1: `predictSurvival` is a total function: on every input — absent
fields and `NaN` fields included — the returned probability lies in
`[0,1]`, and `survived` is `true` exactly when the probability is strictly
greater than 0.5. -/
theorem predictSurvival_range_and_verdict (p : ScorerInput) :
    0 ≤ (predictSurvival p).probability ∧
      (predictSurvival p).probability ≤ 1 ∧
      ((predictSurvival p).survived = true ↔
        (predictSurvival p).probability > 0.5) := by
  refine ⟨clamp01_nonneg (score p), clamp01_le_one (score p), ?_⟩
  show decide ((predictSurvival p).probability > 0.5) = true ↔ _
  exact decide_eq_true_iff

/-! ## C9 -/

/-- C9: the `Embarked` field never affects the result: two inputs that
differ only in `Embarked` get the same probability and verdict. -/
theorem predictSurvival_embarked_irrelevant (p : ScorerInput)
    (e : Option String) :
    predictSurvival { p with Embarked := e } = predictSurvival p := rfl

/-! ## C10 -/

/-- C10: the scorer conflates a zero value with an absent value for age
and fare: `Age = 0` behaves exactly like `Age` absent (30 is substituted,
so no child adjustment at age 0), and `Fare = 0` behaves exactly like
`Fare` absent (15 is substituted, so no low-fare penalty at fare 0). -/
theorem zero_age_fare_conflated_with_absent (p : ScorerInput) :
    predictSurvival { p with Age := some (.num 0) }
        = predictSurvival { p with Age := none } ∧
      predictSurvival { p with Fare := some (.num 0) }
        = predictSurvival { p with Fare := none } := by
  constructor <;>
    simp [predictSurvival, score, ageAdj, fareAdj, jOr]

/-! ## C2 -/

lemma ageAdj_none : ageAdj none = 0 := by norm_num [ageAdj, jOr]

lemma ageAdj_num_ne_zero (q : ℚ) (h0 : q ≠ 0) :
    ageAdj (some (.num q)) =
      if q < 16 then 0.1 else if q > 60 then -0.1 else 0 := by
  simp only [ageAdj, jOr, if_neg h0]

lemma score_age (p : ScorerInput) (a : Option JNum) :
    score { p with Age := a }
      = 0.5 + sexAdj p.Sex + classAdj p.Pclass + ageAdj a
          + famAdj p.SibSp p.Parch + fareAdj p.Fare := rfl

/-- C2, counterexample: for a passenger whose age is present and equal to
0 the scorer does NOT add the +0.10 child adjustment — age 0 is falsy, so
30 is substituted and the result is identical to the age-absent input
(probability 0.1, not 0.2). -/
theorem ageRule_zero_age_counterexample :
    (predictSurvival ⟨some "male", some (.num 3), some (.num 0),
        some (.num 0), some (.num 0), some (.num 15), some "S"⟩).probability
      = (predictSurvival ⟨some "male", some (.num 3), none,
        some (.num 0), some (.num 0), some (.num 15), some "S"⟩).probability
    ∧ (predictSurvival ⟨some "male", some (.num 3), some (.num 0),
        some (.num 0), some (.num 0), some (.num 15), some "S"⟩).probability
      ≠ (predictSurvival ⟨some "male", some (.num 3), none,
        some (.num 0), some (.num 0), some (.num 15), some "S"⟩).probability
        + 0.1 := by
  constructor
  · simp [predictSurvival, score, ageAdj, jOr]
  · simp [predictSurvival, score, sexAdj, classAdj, ageAdj, famAdj, fareAdj,
      jOr, mathMin, mathMax]
    norm_num

/-- C2, amended: if the age attribute is absent, 30 is substituted before
the rule is applied; a present age equal to 0 is also treated as absent
(30 substituted, so no child adjustment at age 0).  For a present nonzero
age `q` the rule contributes +0.10 when `q < 16`, −0.10 when `q > 60`,
and nothing otherwise. -/
theorem ageRule_amended (p : ScorerInput) (q : ℚ) :
    score { p with Age := none } = score { p with Age := some (.num 30) }
    ∧ score { p with Age := some (.num 0) } = score { p with Age := none }
    ∧ (q ≠ 0 → q < 16 →
        score { p with Age := some (.num q) }
          = score { p with Age := none } + 0.1)
    ∧ (q > 60 →
        score { p with Age := some (.num q) }
          = score { p with Age := none } - 0.1)
    ∧ (q ≠ 0 → 16 ≤ q → q ≤ 60 →
        score { p with Age := some (.num q) } = score { p with Age := none }) := by
  have h30 : ageAdj (some (.num 30)) = 0 := by norm_num [ageAdj, jOr]
  have h0 : ageAdj (some (.num 0)) = 0 := by norm_num [ageAdj, jOr]
  refine ⟨?_, ?_, ?_, ?_, ?_⟩
  · rw [score_age, score_age, ageAdj_none, h30]
  · rw [score_age, score_age, ageAdj_none, h0]
  · intro hq hlt
    rw [score_age, score_age, ageAdj_none, ageAdj_num_ne_zero q hq,
      if_pos hlt]
    ring
  · intro hgt
    rw [score_age, score_age, ageAdj_none,
      ageAdj_num_ne_zero q (by intro h; rw [h] at hgt; norm_num at hgt),
      if_neg (by linarith), if_pos hgt]
    ring
  · intro hq h16 h60
    rw [score_age, score_age, ageAdj_none, ageAdj_num_ne_zero q hq,
      if_neg (by linarith), if_neg (by linarith)]

/-- C2, witness for the amended theorem: at the default male third-class
input, age 5 adds 0.10 to the score, age 70 subtracts 0.10, and age 30
changes nothing, each relative to the age-absent input. -/
theorem ageRule_amended_witness :
    (score ⟨some "male", some (.num 3), some (.num 5),
        some (.num 0), some (.num 0), some (.num 15), some "S"⟩
      = score ⟨some "male", some (.num 3), none,
        some (.num 0), some (.num 0), some (.num 15), some "S"⟩ + 0.1)
    ∧ (score ⟨some "male", some (.num 3), some (.num 70),
        some (.num 0), some (.num 0), some (.num 15), some "S"⟩
      = score ⟨some "male", some (.num 3), none,
        some (.num 0), some (.num 0), some (.num 15), some "S"⟩ - 0.1)
    ∧ (score ⟨some "male", some (.num 3), some (.num 30),
        some (.num 0), some (.num 0), some (.num 15), some "S"⟩
      = score ⟨some "male", some (.num 3), none,
        some (.num 0), some (.num 0), some (.num 15), some "S"⟩) :=
  ⟨(ageRule_amended ⟨some "male", some (.num 3), none, some (.num 0),
      some (.num 0), some (.num 15), some "S"⟩ 5).2.2.1
      (by norm_num) (by norm_num),
   (ageRule_amended ⟨some "male", some (.num 3), none, some (.num 0),
      some (.num 0), some (.num 15), some "S"⟩ 70).2.2.2.1 (by norm_num),
   (ageRule_amended ⟨some "male", some (.num 3), none, some (.num 0),
      some (.num 0), some (.num 15), some "S"⟩ 30).2.2.2.2
      (by norm_num) (by norm_num) (by norm_num)⟩

/-! ## C3 -/

lemma score_sex (p : ScorerInput) (s : Option String) :
    score { p with Sex := s }
      = 0.5 + sexAdj s + classAdj p.Pclass + ageAdj p.Age
          + famAdj p.SibSp p.Parch + fareAdj p.Fare := rfl

lemma score_class (p : ScorerInput) (c : Option JNum) :
    score { p with Pclass := c }
      = 0.5 + sexAdj p.Sex + classAdj c + ageAdj p.Age
          + famAdj p.SibSp p.Parch + fareAdj p.Fare := rfl

/-- C3, counterexample: the increases are not always exactly 0.60 and
0.35 — clamping can absorb part of them.  For a first-class child with a
small family and a high fare, the male probability is 0.7 but the female
probability clamps at 1 (an increase of 0.3); likewise, changing a
third-class female's class to 1 moves 0.95 only up to the clamp at 1. -/
theorem sexClassDelta_counterexample :
    ((predictSurvival ⟨some "female", some (.num 1), some (.num 10),
        some (.num 1), some (.num 1), some (.num 80), some "S"⟩).probability
      ≠ (predictSurvival ⟨some "male", some (.num 1), some (.num 10),
        some (.num 1), some (.num 1), some (.num 80), some "S"⟩).probability
        + 0.6)
    ∧ ((predictSurvival ⟨some "female", some (.num 1), some (.num 10),
        some (.num 1), some (.num 1), some (.num 80), some "S"⟩).probability
      ≠ (predictSurvival ⟨some "female", some (.num 3), some (.num 10),
        some (.num 1), some (.num 1), some (.num 80), some "S"⟩).probability
        + 0.35) := by
  constructor <;>
  · simp [predictSurvival, score, sexAdj, classAdj, ageAdj, famAdj, fareAdj,
      jOr, mathMin, mathMax]
    norm_num

/-- C3, amended: holding all other attributes fixed, changing sex from
`male` to `female` strictly increases the returned probability, and the
increase is exactly 0.60 whenever neither score is clamped (the male
score is at least 0 and the female score at most 1); likewise changing
class from 3 to 1 strictly increases the probability, by exactly 0.35
when neither score is clamped. -/
theorem sexClassMono_amended (p : ScorerInput) :
    ((predictSurvival { p with Sex := some "male" }).probability
       < (predictSurvival { p with Sex := some "female" }).probability)
    ∧ (0 ≤ score { p with Sex := some "male" } →
        score { p with Sex := some "female" } ≤ 1 →
        (predictSurvival { p with Sex := some "female" }).probability
          = (predictSurvival { p with Sex := some "male" }).probability + 0.6)
    ∧ ((predictSurvival { p with Pclass := some (.num 3) }).probability
       < (predictSurvival { p with Pclass := some (.num 1) }).probability)
    ∧ (0 ≤ score { p with Pclass := some (.num 3) } →
        score { p with Pclass := some (.num 1) } ≤ 1 →
        (predictSurvival { p with Pclass := some (.num 1) }).probability
          = (predictSurvival { p with Pclass := some (.num 3) }).probability
            + 0.35) := by
  have hC_le := classAdj_le p.Pclass
  have hC_ge := classAdj_ge p.Pclass
  have hA_le := ageAdj_le p.Age
  have hA_ge := ageAdj_ge p.Age
  have hF_le := famAdj_le p.SibSp p.Parch
  have hF_ge := famAdj_ge p.SibSp p.Parch
  have hR_le := fareAdj_le p.Fare
  have hR_ge := fareAdj_ge p.Fare
  have hS_le := sexAdj_le p.Sex
  have hS_ge := sexAdj_ge p.Sex
  have hm : score { p with Sex := some "male" }
      = 0.5 + (-0.25) + classAdj p.Pclass + ageAdj p.Age
          + famAdj p.SibSp p.Parch + fareAdj p.Fare := by
    rw [score_sex, sexAdj_male]
  have hf : score { p with Sex := some "female" }
      = 0.5 + 0.35 + classAdj p.Pclass + ageAdj p.Age
          + famAdj p.SibSp p.Parch + fareAdj p.Fare := by
    rw [score_sex, sexAdj_female]
  have hdiff : score { p with Sex := some "female" }
      = score { p with Sex := some "male" } + 0.6 := by
    rw [hm, hf]; ring
  have h3 : score { p with Pclass := some (.num 3) }
      = 0.5 + sexAdj p.Sex + (-0.15) + ageAdj p.Age
          + famAdj p.SibSp p.Parch + fareAdj p.Fare := by
    rw [score_class, classAdj_three]
  have h1 : score { p with Pclass := some (.num 1) }
      = 0.5 + sexAdj p.Sex + 0.2 + ageAdj p.Age
          + famAdj p.SibSp p.Parch + fareAdj p.Fare := by
    rw [score_class, classAdj_one]
  have hdiffc : score { p with Pclass := some (.num 1) }
      = score { p with Pclass := some (.num 3) } + 0.35 := by
    rw [h3, h1]; ring
  refine ⟨?_, ?_, ?_, ?_⟩
  · rw [predictSurvival_probability, predictSurvival_probability]
    apply clamp01_strict_mono
    · rw [hm]; linarith
    · rw [hf]; linarith
    · rw [hm, hf]; linarith
  · intro hc0 hc1
    have hmle : score { p with Sex := some "male" } ≤ 1 := by
      rw [hm]; linarith
    have hf0 : 0 ≤ score { p with Sex := some "female" } := by
      rw [hdiff]; linarith
    rw [predictSurvival_probability, predictSurvival_probability,
      clamp01_eq_self _ hc0 hmle, clamp01_eq_self _ hf0 hc1]
    exact hdiff
  · rw [predictSurvival_probability, predictSurvival_probability]
    apply clamp01_strict_mono
    · rw [h3]; linarith
    · rw [h1]; linarith
    · rw [h3, h1]; linarith
  · intro hc0 hc1
    have h3le : score { p with Pclass := some (.num 3) } ≤ 1 := by
      rw [h3]; linarith
    have h10 : 0 ≤ score { p with Pclass := some (.num 1) } := by
      rw [hdiffc]; linarith
    rw [predictSurvival_probability, predictSurvival_probability,
      clamp01_eq_self _ hc0 h3le, clamp01_eq_self _ h10 hc1]
    exact hdiffc

/-- C3, witness for the amended theorem: at the unclamped default input
(male, third class, age 30, no family, fare 15), switching to female
raises the probability from 0.1 to 0.7 (exactly +0.60), and switching
class 3 to class 1 raises it from 0.1 to 0.45 (exactly +0.35). -/
theorem sexClassMono_amended_witness :
    ((predictSurvival ⟨some "female", some (.num 3), some (.num 30),
        some (.num 0), some (.num 0), some (.num 15), some "S"⟩).probability
      = (predictSurvival ⟨some "male", some (.num 3), some (.num 30),
        some (.num 0), some (.num 0), some (.num 15), some "S"⟩).probability
        + 0.6)
    ∧ ((predictSurvival ⟨some "male", some (.num 1), some (.num 30),
        some (.num 0), some (.num 0), some (.num 15), some "S"⟩).probability
      = (predictSurvival ⟨some "male", some (.num 3), some (.num 30),
        some (.num 0), some (.num 0), some (.num 15), some "S"⟩).probability
        + 0.35) :=
  ⟨(sexClassMono_amended ⟨some "male", some (.num 3), some (.num 30),
      some (.num 0), some (.num 0), some (.num 15), some "S"⟩).2.1
      (by
        simp [score, sexAdj, classAdj, ageAdj, famAdj, fareAdj, jOr]
        norm_num)
      (by
        simp [score, sexAdj, classAdj, ageAdj, famAdj, fareAdj, jOr]
        norm_num),
   (sexClassMono_amended ⟨some "male", some (.num 3), some (.num 30),
      some (.num 0), some (.num 0), some (.num 15), some "S"⟩).2.2.2
      (by
        simp [score, sexAdj, classAdj, ageAdj, famAdj, fareAdj, jOr]
        norm_num)
      (by
        simp [score, sexAdj, classAdj, ageAdj, famAdj, fareAdj, jOr]
        norm_num)⟩

/-! ## C4 -/

/-- C4, counterexample: a `NaN` sibling/spouse count does not make the
family-size rule contribute zero.  `NaN` is falsy, so `SibSp || 0`
evaluates to 0 and the parent/child count still counts: with `SibSp =
NaN` and `Parch = 2` the rule contributes +0.05, and the probability
differs from the input whose family rule contributes nothing. -/
theorem nanField_counterexample :
    famAdj (some .nan) (some (.num 2)) ≠ 0
    ∧ (predictSurvival ⟨some "male", some (.num 3), some (.num 30),
        some .nan, some (.num 2), some (.num 15), some "S"⟩).probability
      ≠ (predictSurvival ⟨some "male", some (.num 3), some (.num 30),
        some (.num 0), some (.num 0), some (.num 15), some "S"⟩).probability := by
  constructor
  · simp [famAdj, jOr]
    norm_num
  · simp [predictSurvival, score, sexAdj, classAdj, ageAdj, famAdj, fareAdj,
      jOr, mathMin, mathMax]
    norm_num

/-- C4, amended: a `NaN` numeric field is replaced by the rule's fallback
before any comparison (`NaN` is falsy under `||`).  For age and fare the
fallbacks 30 and 15 fall in the no-adjustment band, so those rules
contribute zero; a `NaN` class fails both equality tests and takes the
−0.15 else-branch; and a `NaN` sibling/spouse or parent/child count is
treated as 0 while the other count still enters the family-size rule. -/
theorem nanField_amended (x : Option JNum) :
    ageAdj (some .nan) = 0
    ∧ fareAdj (some .nan) = 0
    ∧ classAdj (some .nan) = -0.15
    ∧ famAdj (some .nan) x = famAdj (some (.num 0)) x
    ∧ famAdj x (some .nan) = famAdj x (some (.num 0)) := by
  refine ⟨?_, ?_, ?_, ?_, ?_⟩
  · norm_num [ageAdj, jOr]
  · norm_num [fareAdj, jOr]
  · simp [classAdj]
  · simp [famAdj, jOr]
  · simp [famAdj, jOr]

/-! ## C8 -/

lemma ratio_pct_range (c t : ℕ) (hle : c ≤ t) (ht : 0 < t) :
    0 ≤ ((c : ℚ) / (t : ℚ)) * 100 ∧ ((c : ℚ) / (t : ℚ)) * 100 ≤ 100 := by
  have h0 : (0 : ℚ) < (t : ℚ) := by exact_mod_cast ht
  have hc : ((c : ℚ) / (t : ℚ)) ≤ 1 := by
    rw [div_le_one h0]; exact_mod_cast hle
  have hc0 : (0 : ℚ) ≤ (c : ℚ) / (t : ℚ) :=
    div_nonneg (Nat.cast_nonneg c) (le_of_lt h0)
  constructor
  · linarith
  · linarith

/-- C8: for every non-empty record sequence, the accuracy computed by
`calculateModelStats` — matching-verdict count over total, times 100 —
lies within `[0,100]`. -/
theorem calculateModelStats_accuracy_range (passengers : List Passenger)
    (h : passengers ≠ []) :
    0 ≤ (calculateModelStats passengers).accuracy ∧
      (calculateModelStats passengers).accuracy ≤ 100 :=
  ratio_pct_range _ _ (List.length_filter_le _ _) (List.length_pos.mpr h)

/-- C8, witness: a singleton dataset has its accuracy within `[0,100]`. -/
theorem calculateModelStats_accuracy_range_witness :
    0 ≤ (calculateModelStats [⟨.num 1, .num 0, .num 3, "A", "male",
        some (.num 30), .num 0, .num 0, "T", some (.num 15), "", "S"⟩]).accuracy
    ∧ (calculateModelStats [⟨.num 1, .num 0, .num 3, "A", "male",
        some (.num 30), .num 0, .num 0, "T", some (.num 15), "", "S"⟩]).accuracy
      ≤ 100 :=
  calculateModelStats_accuracy_range
    [⟨.num 1, .num 0, .num 3, "A", "male", some (.num 30), .num 0, .num 0,
      "T", some (.num 15), "", "S"⟩] (by simp)

/-! ## C7 -/

/-- C7: `parseCSVLine` always emits the accumulated final field when the
line ends, whatever the state of the `inQuotes` flag, so its result is
never empty and its last field is exactly the loop's final `current`. -/
theorem parseCSVLine_always_flushes (line : List Char) :
    parseCSVLine line ≠ []
    ∧ (parseCSVLine line).getLast?
        = some (line.foldl stepCSVLine ⟨[], [], false⟩).current := by
  unfold parseCSVLine
  constructor
  · simp
  · simp

/-! ## C5 -/

lemma stripQuotes_of_no_quote (s : List Char) (h : '"' ∉ s) :
    stripQuotes s = s := by
  unfold stripQuotes
  rw [List.filter_eq_self]
  intro a ha
  rw [bne_iff_ne]
  exact fun h2 => h (h2 ▸ ha)

lemma foldl_inQuotes (s : List Char) (st : LineState)
    (hq : st.inQuotes = true) (hs : '"' ∉ s) :
    s.foldl stepCSVLine st = ⟨st.result, st.current ++ s, true⟩ := by
  induction s generalizing st with
  | nil =>
    cases st with
    | mk r cur q => simp at hq; subst hq; simp
  | cons c cs ih =>
    have hc : c ≠ '"' := fun h => hs (by simp [h])
    have hcs : '"' ∉ cs := fun h => hs (List.mem_cons_of_mem _ h)
    rw [List.foldl_cons]
    have hstep : stepCSVLine st c = ⟨st.result, st.current ++ [c], st.inQuotes⟩ := by
      unfold stepCSVLine
      rw [if_neg hc, if_neg]
      rintro ⟨-, h2⟩
      rw [hq] at h2
      exact Bool.noConfusion h2
    rw [hstep, ih ⟨st.result, st.current ++ [c], st.inQuotes⟩ hq hcs]
    simp

/-- C5: round-trip of a quoted field: for any field text containing an
embedded comma and no quote characters, wrapping it in double quotes and
parsing the resulting line back (`parseCSVLine` followed by the global
quote stripping) yields exactly the original text as a single field. -/
theorem quoted_field_roundtrip (s : List Char) (hq : '"' ∉ s)
    (_hc : ',' ∈ s) :
    (parseCSVLine ('"' :: (s ++ ['"']))).map stripQuotes = [s] := by
  unfold parseCSVLine
  rw [List.foldl_cons]
  have h1 : stepCSVLine ⟨[], [], false⟩ '"' = ⟨[], [], true⟩ := rfl
  rw [h1, List.foldl_append, foldl_inQuotes s ⟨[], [], true⟩ rfl hq]
  have h2 : List.foldl stepCSVLine ⟨[], [] ++ s, true⟩ ['"']
      = ⟨[], [] ++ s, false⟩ := rfl
  rw [h2]
  simp [stripQuotes_of_no_quote s hq]

/-- C5, witness: the field `a,b` wrapped in quotes parses back to itself
as a single field with the comma preserved. -/
theorem quoted_field_roundtrip_witness :
    ('"' ∉ ['a', ',', 'b'] ∧ ',' ∈ ['a', ',', 'b'])
    ∧ (parseCSVLine ('"' :: (['a', ',', 'b'] ++ ['"']))).map stripQuotes
        = [['a', ',', 'b']] :=
  ⟨⟨by decide, by decide⟩,
   quoted_field_roundtrip ['a', ',', 'b'] (by decide) (by decide)⟩

/-! ## C6 -/

lemma splitOnChar_no_sep (sep : Char) (s : List Char) (h : sep ∉ s) :
    splitOnChar sep s = [s] := by
  induction s with
  | nil => rfl
  | cons c cs ih =>
    have hc : c ≠ sep := fun hcc => h (by simp [hcc])
    have hcs : sep ∉ cs := fun hm => h (List.mem_cons_of_mem _ hm)
    simp only [splitOnChar, if_neg hc, ih hcs]

lemma splitOnChar_append (sep : Char) (a t : List Char) (h : sep ∉ a) :
    splitOnChar sep (a ++ sep :: t) = a :: splitOnChar sep t := by
  induction a with
  | nil => simp [splitOnChar]
  | cons c cs ih =>
    have hc : c ≠ sep := fun hcc => h (by simp [hcc])
    have hcs : sep ∉ cs := fun hm => h (List.mem_cons_of_mem _ hm)
    simp only [List.cons_append, splitOnChar, List.append_eq, if_neg hc, ih hcs]

lemma splitOnChar_joinLines (ls : List (List Char)) (hne : ls ≠ [])
    (h : ∀ l ∈ ls, '\n' ∉ l) :
    splitOnChar '\n' (joinLines ls) = ls := by
  induction ls with
  | nil => cases hne rfl
  | cons l rest ih =>
    cases rest with
    | nil => exact splitOnChar_no_sep _ _ (h l (List.mem_cons_self _ _))
    | cons l2 rest2 =>
      rw [show joinLines (l :: l2 :: rest2)
            = l ++ '\n' :: joinLines (l2 :: rest2) from rfl,
        splitOnChar_append _ _ _ (h l (List.mem_cons_self _ _)),
        ih (List.cons_ne_nil _ _)
          (fun x hx => h x (List.mem_cons_of_mem _ hx))]

/-- C6: on a text made of a header line followed by data rows (none of
which contains a newline, and with nothing for `trim` to strip),
`parseCSV` produces exactly one record per non-header line, in input
order, so the output length is the input line count minus one. -/
theorem parseCSV_one_record_per_line (header : List Char)
    (rows : List (List Char)) (hh : '\n' ∉ header)
    (hr : ∀ r ∈ rows, '\n' ∉ r)
    (ht : trimJS (joinLines (header :: rows)) = joinLines (header :: rows)) :
    parseCSV (joinLines (header :: rows))
        = rows.map (parseRow (splitOnChar ',' header))
    ∧ (parseCSV (joinLines (header :: rows))).length + 1
        = (header :: rows).length := by
  have hsplit : splitOnChar '\n' (trimJS (joinLines (header :: rows)))
      = header :: rows := by
    rw [ht]
    refine splitOnChar_joinLines _ (List.cons_ne_nil _ _) ?_
    intro l hl
    rcases List.mem_cons.mp hl with h1 | h2
    · exact h1 ▸ hh
    · exact hr l h2
  have hmain : parseCSV (joinLines (header :: rows))
      = rows.map (parseRow (splitOnChar ',' header)) := by
    simp only [parseCSV, hsplit]
    simp
  exact ⟨hmain, by rw [hmain]; simp⟩

/-- C6, witness: a one-column header with two data rows yields exactly
two records, in order. -/
theorem parseCSV_one_record_per_line_witness :
    parseCSV (joinLines [['h'], ['1'], ['2']])
        = [['1'], ['2']].map (parseRow (splitOnChar ',' ['h']))
    ∧ (parseCSV (joinLines [['h'], ['1'], ['2']])).length + 1
        = ([['h'], ['1'], ['2']] : List (List Char)).length :=
  parseCSV_one_record_per_line ['h'] [['1'], ['2']]
    (by decide) (by decide) (by decide)
